import Mathlib

/-!
Verification development for `src/pages/3_Asistente_IA.py` (Kingdom Barber
business-intelligence page).  The embedded core is the analyst tab
("Chatea con tus Datos", lines 106-173): a user question is answered by
asking the model for a Python script, executing that script with
`exec(codigo_generado, ('pd': pd, 'df': df))` while `sys.stdout` is swapped
for a fresh `io.StringIO`, capturing the script's textual output, and
issuing a second model call that interprets the captured text.

The guest scripts are modelled by a small statement language whose
semantics follows Python's `exec`: name lookup first consults the globals
mapping passed to `exec` (exactly `pd` and `df`) and then falls back to the
interpreter's implicitly injected builtins (`__builtins__`), the `df`
binding is a reference to the caller's `df_filtrado` object (line 148
`df = df_filtrado` aliases, it does not copy), and writes performed by
`print` go to whatever object `sys.stdout` currently designates.
-/

namespace Asistente

/-- A dataframe row: an association list from column name to value. -/
abbrev Row : Type := List (String × Int)

/-- The tabular dataset (`df_filtrado`): a list of rows.  Pandas
`df.empty` corresponds to the row list being `[]`, and `len(df)` to the
row count. -/
abbrev DataFrame : Type := List Row

/-- Where the process-wide `sys.stdout` currently points: the real console,
or the fresh capture buffer (`io.StringIO`) installed at line 149. -/
inductive StdoutTarget : Type where
  | console : StdoutTarget
  | capture : StdoutTarget
deriving DecidableEq

/-- Python runtime values that can flow through a generated script in this
model: integers, strings, the dataframe reference bound to `df`, modules
(such as the `pd` binding), builtin functions reachable through the
implicitly injected `__builtins__`, and file handles returned by `open`. -/
inductive PyVal : Type where
  | int : Int → PyVal
  | str : List Char → PyVal
  | dfRef : PyVal
  | module : String → PyVal
  | builtinFn : String → PyVal
  | fileHandle : List Char → PyVal
deriving DecidableEq

/-- Exceptions a generated script can raise: unbound-name lookups
(`NameError`), ill-typed applications (`TypeError`), and user raises. -/
inductive PyErr : Type where
  | nameError : String → PyErr
  | typeError : PyErr
  | userError : List Char → PyErr
deriving DecidableEq

/-- The host (Streamlit process) state visible to one request of the
analyst tab.  `stdout` is the process-wide `sys.stdout` target;
`consoleOut` is what actually reached the real console; `buffer` is the
content of the current capture object; `heap` is the caller's
`df_filtrado` object (the `df` binding references it); `fsReads` records
paths opened through the builtin `open`; `trace` is a ghost field that
records every write a script performs regardless of where `sys.stdout`
points (it changes no observable behaviour and exists only so theorems can
speak about "all text the script wrote"). -/
structure Host : Type where
  stdout : StdoutTarget
  consoleOut : List (List Char)
  buffer : List (List Char)
  heap : DataFrame
  fsReads : List (List Char)
  trace : List (List Char)
deriving DecidableEq

/-- Expressions of the guest script language: literals, name references
(resolved exactly as `exec` resolves globals), and one-argument calls. -/
inductive Expr : Type where
  | lit : PyVal → Expr
  | name : String → Expr
  | app : Expr → Expr → Expr
deriving DecidableEq

/-- Statements of the guest script language.  `printStmt e endS` models
`print(e, end=endS)` (the default Python call is `endS = newline`);
`exprStmt` evaluates an expression for its effect; `assignCol e c v`
models the in-place column assignment `e['c'] = v`; `raiseStmt` models
`raise Exception(msg)`. -/
inductive Stmt : Type where
  | printStmt : Expr → List Char → Stmt
  | exprStmt : Expr → Stmt
  | assignCol : Expr → String → Int → Stmt
  | raiseStmt : List Char → Stmt
deriving DecidableEq

/-- Result of evaluating an expression: a value, or a propagating
exception; either way the (possibly updated) host state is kept, exactly
as a Python exception keeps all side effects performed so far. -/
inductive EvalRes : Type where
  | ok : PyVal → Host → EvalRes
  | fail : PyErr → Host → EvalRes
deriving DecidableEq

/-- Result of executing statements: normal completion or a propagating
exception, in both cases with the final host state. -/
inductive ExecRes : Type where
  | ok : Host → ExecRes
  | fail : PyErr → Host → ExecRes
deriving DecidableEq

/-- The host state carried by an evaluation result. -/
def EvalRes.host : EvalRes → Host
  | .ok _ h => h
  | .fail _ h => h

/-- The host state carried by an execution result. -/
def ExecRes.host : ExecRes → Host
  | .ok h => h
  | .fail _ h => h

/-- The globals dictionary literally passed to `exec` at line 150:
`('pd': pd, 'df': df)` and nothing else. -/
def sandboxGlobals : List (String × PyVal) :=
  [("pd", PyVal.module "pandas"), ("df", PyVal.dfRef)]

/-- The builtins CPython injects into any globals dictionary handed to
`exec` that lacks a `__builtins__` entry; name resolution inside the
exec'd script falls back to them.  Only a representative handful is
modelled. -/
def pyBuiltins : List (String × PyVal) :=
  [("print", PyVal.builtinFn "print"), ("len", PyVal.builtinFn "len"),
   ("open", PyVal.builtinFn "open"), ("__import__", PyVal.builtinFn "__import__")]

/-- Name resolution inside the exec'd script: the globals dictionary
passed to `exec` first, then the implicitly injected builtins. -/
def lookupName (n : String) : Option PyVal :=
  match List.lookup n sandboxGlobals with
  | some v => some v
  | none => List.lookup n pyBuiltins

/-- Write one chunk of text to whatever `sys.stdout` designates.  The
ghost `trace` field records the chunk unconditionally. -/
def writeOut (t : List Char) (h : Host) : Host :=
  match h.stdout with
  | .console => { h with consoleOut := h.consoleOut ++ [t], trace := h.trace ++ [t] }
  | .capture => { h with buffer := h.buffer ++ [t], trace := h.trace ++ [t] }

/-- Set (or create) column `c` of one row, as pandas column assignment
does row-wise. -/
def setField (r : Row) (c : String) (v : Int) : Row :=
  if r.any (fun kv => kv.1 == c) then r.map (fun kv => if kv.1 == c then (c, v) else kv)
  else r ++ [(c, v)]

/-- In-place column assignment `df['c'] = v` over the whole dataframe. -/
def setCol (df : DataFrame) (c : String) (v : Int) : DataFrame :=
  df.map (fun r => setField r c v)

/-- The text `str(v)` produced when a value is printed. -/
def pyStr : PyVal → List Char
  | .str s => s
  | .int n => (toString n).data
  | .dfRef => ['<', 'd', 'f', '>']
  | .module m => ('<' :: m.data) ++ ['>']
  | .builtinFn n => ('<' :: n.data) ++ ['>']
  | .fileHandle p => ('<' :: p) ++ ['>']

/-- Application of a callable to one argument.  `open` hands back a file
handle and records the file-system access, `len` on the dataframe yields
the row count, `__import__` yields the named module; everything else is a
`TypeError`. -/
def applyVal (f a : PyVal) (h : Host) : EvalRes :=
  match f, a with
  | .builtinFn "open", .str p => .ok (.fileHandle p) { h with fsReads := h.fsReads ++ [p] }
  | .builtinFn "len", .dfRef => .ok (.int (h.heap.length : Int)) h
  | .builtinFn "__import__", .str m => .ok (.module (String.mk m)) h
  | _, _ => .fail .typeError h

/-- Expression evaluation under the `exec` environment. -/
def evalExpr : Expr → Host → EvalRes
  | .lit v, h => .ok v h
  | .name n, h =>
    match lookupName n with
    | some v => .ok v h
    | none => .fail (.nameError n) h
  | .app f a, h =>
    match evalExpr f h with
    | .fail e h1 => .fail e h1
    | .ok vf h1 =>
      match evalExpr a h1 with
      | .fail e h2 => .fail e h2
      | .ok va h2 => applyVal vf va h2

/-- Execution of one statement. -/
def execStmt : Stmt → Host → ExecRes
  | .printStmt e endS, h =>
    match evalExpr e h with
    | .ok v h1 => .ok (writeOut (pyStr v ++ endS) h1)
    | .fail er h1 => .fail er h1
  | .exprStmt e, h =>
    match evalExpr e h with
    | .ok _ h1 => .ok h1
    | .fail er h1 => .fail er h1
  | .assignCol e c v, h =>
    match evalExpr e h with
    | .ok .dfRef h1 => .ok { h1 with heap := setCol h1.heap c v }
    | .ok _ h1 => .fail .typeError h1
    | .fail er h1 => .fail er h1
  | .raiseStmt msg, h => .fail (.userError msg) h

/-- Execution of a whole generated script: statements run in order until
one raises, exactly as `exec` runs a module body. -/
def execStmts : List Stmt → Host → ExecRes
  | [], h => .ok h
  | s :: rest, h =>
    match execStmt s h with
    | .ok h1 => execStmts rest h1
    | .fail e h1 => .fail e h1

/-- Does a statement mutate the dataframe in place? -/
def Stmt.mutatesDf : Stmt → Bool
  | .assignCol _ _ _ => true
  | _ => false

/-- Host state at sandbox entry, after line 149
`old_stdout, sys.stdout = sys.stdout, StringIO()`: `sys.stdout` now points
at a fresh empty capture object.  (The ghost `trace` is reset as well so
that it records exactly this execution's writes.) -/
def sandboxEntry (h : Host) : Host :=
  { h with stdout := .capture, buffer := [], trace := [] }

/-- Outcome shown to the user by one press of "Analizar y Responder". -/
inductive Outcome : Type where
  | noModel : Outcome
  | emptyQuestion : Outcome
  | noData : Outcome
  | answered : List Char → List Char → Outcome
  | errorShown : PyErr → Outcome
deriving DecidableEq

/-- Result of one analyst-tab request: how many generation calls, how many
interpretation calls, how many `exec` attempts were performed, the outcome
displayed, and the host state after the request. -/
structure PipelineResult : Type where
  genCalls : Nat
  interpCalls : Nat
  execAttempts : Nat
  outcome : Outcome
  host : Host
deriving DecidableEq

/-- One request of the analyst tab (lines 111-173).  Guards mirror lines
112-114 (`not model`, `not pregunta_usuario`, `df_filtrado.empty`); then
the generation call produces `script` (one model call), `sys.stdout` is
swapped for a fresh capture object, the script is exec'd, and on success
the captured value is fed to the interpretation call (`interpret`, the
second model call) and shown, with `sys.stdout` restored from `old_stdout`
only on that success path; on an exception the `except` block shows the
error without restoring `sys.stdout`. -/
def runAnalista (modelAvailable : Bool) (question : List Char) (script : List Stmt)
    (interpret : List Char → List Char) (h0 : Host) : PipelineResult :=
  if modelAvailable = false then ⟨0, 0, 0, .noModel, h0⟩
  else if question = [] then ⟨0, 0, 0, .emptyQuestion, h0⟩
  else if h0.heap = [] then ⟨0, 0, 0, .noData, h0⟩
  else
    match execStmts script (sandboxEntry h0) with
    | .ok h2 =>
      ⟨1, 1, 1, .answered (interpret h2.buffer.flatten) h2.buffer.flatten,
        { h2 with stdout := h0.stdout }⟩
    | .fail e h2 => ⟨1, 0, 1, .errorShown e, h2⟩

/-- Outcome of loading the whole page. -/
inductive PageOutcome : Type where
  | stoppedNoData : PageOutcome
  | ran : PipelineResult → PageOutcome
deriving DecidableEq

/-- Total number of model calls behind a page outcome. -/
def PageOutcome.modelCallCount : PageOutcome → Nat
  | .stoppedNoData => 0
  | .ran r => r.genCalls + r.interpCalls

/-- The page-level flow: lines 21-25 load `df_citas_completa` and stop
with a "no data" error before the model is even configured when it is
empty; otherwise the sidebar filters produce `df_filtrado`, which becomes
the caller's dataframe for the analyst-tab request. -/
def pageRun (dfComplete dfFiltered : DataFrame) (modelAvailable : Bool)
    (question : List Char) (script : List Stmt)
    (interpret : List Char → List Char) (h0 : Host) : PageOutcome :=
  if dfComplete = [] then .stoppedNoData
  else .ran (runAnalista modelAvailable question script interpret { h0 with heap := dfFiltered })

/-- Characters removed by Python `str.strip()` with no argument. -/
def pySpace (c : Char) : Bool :=
  (c == ' ') || (c == '\n') || (c == '\t') || (c == '\r') || (c == '\x0b') || (c == '\x0c')

/-- The backtick character (used by code fences). -/
def graveChar : Char := Char.ofNat 96

/-- Python `str.strip()`: drop leading and trailing whitespace. -/
def pyStrip (s : List Char) : List Char :=
  (((s.dropWhile pySpace).reverse).dropWhile pySpace).reverse

/-- Fuelled worker for Python `str.replace(pat, r)`: scan left to right,
replacing each non-overlapping occurrence of `pat`.  The fuel only bounds
recursion depth; `pyReplace` supplies enough for the whole input. -/
def replaceAux : Nat → List Char → List Char → List Char → List Char
  | _, [], _, _ => []
  | 0, _ :: _, _, _ => []
  | fuel + 1, a :: t, pat, r =>
    if pat.isPrefixOf (a :: t) then r ++ replaceAux fuel (List.drop (pat.length - 1) t) pat r
    else a :: replaceAux fuel t pat r

/-- Python `s.replace(pat, r)` for a non-empty pattern. -/
def pyReplace (s pat r : List Char) : List Char := replaceAux s.length s pat r

/-- The opening code-fence marker removed at line 144. -/
def fencePy : List Char := [graveChar, graveChar, graveChar, 'p', 'y', 't', 'h', 'o', 'n']

/-- The bare code-fence marker removed at line 144. -/
def fence3 : List Char := [graveChar, graveChar, graveChar]

/-- Line 144: `respuesta_ia.text.strip().replace(fencePy, '').replace(fence3, '')`
producing `codigo_generado` from the raw model reply. -/
def codigoGenerado (t : List Char) : List Char :=
  pyReplace (pyReplace (pyStrip t) fencePy []) fence3 []

/-- The pattern `pat` occurs somewhere inside `s`. -/
def ContainsPat (pat s : List Char) : Prop := ∃ u v, s = u ++ pat ++ v

/-- The last element of a character list, if any. -/
def lastChar : List Char → Option Char
  | [] => none
  | a :: t =>
    match t with
    | [] => some a
    | _ :: _ => lastChar t

/-- Big-step evaluation relation for expressions, mirroring `evalExpr`. -/
inductive EvalR : Expr → Host → EvalRes → Prop where
  | lit : EvalR (.lit v) h (.ok v h)
  | nameFound : lookupName n = some v → EvalR (.name n) h (.ok v h)
  | nameMissing : lookupName n = none → EvalR (.name n) h (.fail (.nameError n) h)
  | appOk : EvalR f h (.ok vf h1) → EvalR a h1 (.ok va h2) →
      EvalR (.app f a) h (applyVal vf va h2)
  | appFunFail : EvalR f h (.fail e h1) → EvalR (.app f a) h (.fail e h1)
  | appArgFail : EvalR f h (.ok vf h1) → EvalR a h1 (.fail e h2) →
      EvalR (.app f a) h (.fail e h2)

/-- Big-step execution relation for one statement. -/
inductive StmtR : Stmt → Host → ExecRes → Prop where
  | printOk : EvalR e h (.ok v h1) →
      StmtR (.printStmt e endS) h (.ok (writeOut (pyStr v ++ endS) h1))
  | printFail : EvalR e h (.fail er h1) → StmtR (.printStmt e endS) h (.fail er h1)
  | exprOk : EvalR e h (.ok v h1) → StmtR (.exprStmt e) h (.ok h1)
  | exprFail : EvalR e h (.fail er h1) → StmtR (.exprStmt e) h (.fail er h1)
  | assignOk : EvalR e h (.ok .dfRef h1) →
      StmtR (.assignCol e c v) h (.ok { h1 with heap := setCol h1.heap c v })
  | assignBad : EvalR e h (.ok w h1) → w ≠ .dfRef →
      StmtR (.assignCol e c v) h (.fail .typeError h1)
  | assignFail : EvalR e h (.fail er h1) → StmtR (.assignCol e c v) h (.fail er h1)
  | raiseR : StmtR (.raiseStmt msg) h (.fail (.userError msg) h)

/-- Big-step execution relation for a whole script. -/
inductive ExecR : List Stmt → Host → ExecRes → Prop where
  | nil : ExecR [] h (.ok h)
  | consOk : StmtR s h (.ok h1) → ExecR rest h1 r → ExecR (s :: rest) h r
  | consFail : StmtR s h (.fail e h1) → ExecR (s :: rest) h (.fail e h1)

/-- A two-row demonstration dataframe. -/
def demoDF : DataFrame := [[("Precio", 100)], [("Precio", 50)]]

/-- A demonstration host: console stdout, nothing written yet, holding the
demonstration dataframe. -/
def demoHost : Host :=
  { stdout := .console, consoleOut := [], buffer := [], heap := demoDF,
    fsReads := [], trace := [] }

/-- A path used by the file-system counterexample script. -/
def pwPath : List Char := ['/', 'e', 't', 'c', '/', 'p', 'a', 's', 's', 'w', 'd']

/-- A script that raises immediately. -/
def raiseScript : List Stmt := [Stmt.raiseStmt ['b', 'o', 'o', 'm']]

/-- A script whose entire output is the two characters `42` (it prints
with an empty `end`). -/
def write42 : List Stmt := [Stmt.printStmt (Expr.lit (PyVal.str ['4', '2'])) []]

/-- A script that prints one line of text. -/
def printHi : List Stmt := [Stmt.printStmt (Expr.lit (PyVal.str ['h', 'i'])) ['\n']]

/-- A script that calls the builtin `open` on a host path: the name `open`
is outside the two granted bindings, yet reachable. -/
def openScript : List Stmt :=
  [Stmt.exprStmt (Expr.app (Expr.name "open") (Expr.lit (PyVal.str pwPath)))]

/-- A script that mutates the dataframe in place: `df['Precio'] = 0`. -/
def mutScript : List Stmt := [Stmt.assignCol (Expr.name "df") "Precio" 0]

/-- A script that executes successfully but writes nothing. -/
def noPrintScript : List Stmt := [Stmt.exprStmt (Expr.name "df")]

/-- A script referencing the name `os`, which is neither granted nor a
builtin in this model. -/
def nameOsScript : List Stmt := [Stmt.exprStmt (Expr.name "os")]

/-- Every name actually resolvable inside the sandbox: the two granted
bindings plus the modelled builtins. -/
def allowNames : List String := ["pd", "df", "print", "len", "open", "__import__"]

/-- A fence-free script body used to witness the fence-stripping theorem. -/
def demoBody : List Char :=
  ['p', 'r', 'i', 'n', 't', '(', 'l', 'e', 'n', '(', 'd', 'f', ')', ')']

/-- State and text frame of expression evaluation: evaluating an
expression never touches `sys.stdout`, the console, the capture buffer,
the ghost trace, or the dataframe (only `fsReads` can grow, through
`open`). -/
theorem evalExpr_frame (e : Expr) : ∀ h : Host,
    ((evalExpr e h).host).stdout = h.stdout ∧
    ((evalExpr e h).host).consoleOut = h.consoleOut ∧
    ((evalExpr e h).host).buffer = h.buffer ∧
    ((evalExpr e h).host).trace = h.trace ∧
    ((evalExpr e h).host).heap = h.heap := by
  induction e with
  | lit v => intro h; simp [evalExpr, EvalRes.host]
  | name n =>
    intro h
    cases hl : lookupName n <;> simp [evalExpr, hl, EvalRes.host]
  | app f a ihf iha =>
    intro h
    have happly : ∀ (vf va : PyVal) (hh : Host),
        ((applyVal vf va hh).host).stdout = hh.stdout ∧
        ((applyVal vf va hh).host).consoleOut = hh.consoleOut ∧
        ((applyVal vf va hh).host).buffer = hh.buffer ∧
        ((applyVal vf va hh).host).trace = hh.trace ∧
        ((applyVal vf va hh).host).heap = hh.heap := by
      intro vf va hh
      unfold applyVal
      split <;> simp [EvalRes.host]
    have hff := ihf h
    cases hf : evalExpr f h with
    | fail e1 h1 =>
      rw [hf] at hff
      simp only [EvalRes.host] at hff
      obtain ⟨f1, f2, f3, f4, f5⟩ := hff
      simp [evalExpr, hf, EvalRes.host, f1, f2, f3, f4, f5]
    | ok vf h1 =>
      rw [hf] at hff
      simp only [EvalRes.host] at hff
      obtain ⟨f1, f2, f3, f4, f5⟩ := hff
      have haa := iha h1
      cases ha : evalExpr a h1 with
      | fail e2 h2 =>
        rw [ha] at haa
        simp only [EvalRes.host] at haa
        obtain ⟨a1, a2, a3, a4, a5⟩ := haa
        simp [evalExpr, hf, ha, EvalRes.host, a1, a2, a3, a4, a5, f1, f2, f3, f4, f5]
      | ok va h2 =>
        rw [ha] at haa
        simp only [EvalRes.host] at haa
        obtain ⟨a1, a2, a3, a4, a5⟩ := haa
        obtain ⟨p1, p2, p3, p4, p5⟩ := happly vf va h2
        simp only [evalExpr, hf, ha]
        exact ⟨p1.trans (a1.trans f1), p2.trans (a2.trans f2), p3.trans (a3.trans f3),
          p4.trans (a4.trans f4), p5.trans (a5.trans f5)⟩

/-- Writing never moves `sys.stdout`. -/
theorem writeOut_stdout (t : List Char) (h : Host) :
    (writeOut t h).stdout = h.stdout := by
  cases hs : h.stdout <;> simp [writeOut, hs]

/-- Writing never changes the dataframe. -/
theorem writeOut_heap (t : List Char) (h : Host) :
    (writeOut t h).heap = h.heap := by
  cases hs : h.stdout <;> simp [writeOut, hs]

/-- While `sys.stdout` is the capture object, a write leaves the console
untouched and appends the same chunk to both the buffer and the trace. -/
theorem writeOut_capture (t : List Char) (h : Host) (hs : h.stdout = .capture) :
    (writeOut t h).consoleOut = h.consoleOut ∧
    (writeOut t h).buffer = h.buffer ++ [t] ∧
    (writeOut t h).trace = h.trace ++ [t] := by
  simp [writeOut, hs]

/-- Executing one statement never moves `sys.stdout`. -/
theorem execStmt_stdout (st : Stmt) (h : Host) :
    ((execStmt st h).host).stdout = h.stdout := by
  cases st with
  | printStmt e endS =>
    cases he : evalExpr e h with
    | ok v h1 =>
      have := (evalExpr_frame e h).1
      rw [he] at this
      simp only [EvalRes.host] at this
      simp [execStmt, he, ExecRes.host, writeOut_stdout, this]
    | fail er h1 =>
      have := (evalExpr_frame e h).1
      rw [he] at this
      simpa [execStmt, he, ExecRes.host, EvalRes.host] using this
  | exprStmt e =>
    cases he : evalExpr e h with
    | ok v h1 =>
      have := (evalExpr_frame e h).1
      rw [he] at this
      simpa [execStmt, he, ExecRes.host, EvalRes.host] using this
    | fail er h1 =>
      have := (evalExpr_frame e h).1
      rw [he] at this
      simpa [execStmt, he, ExecRes.host, EvalRes.host] using this
  | assignCol e c v =>
    cases he : evalExpr e h with
    | ok w h1 =>
      have := (evalExpr_frame e h).1
      rw [he] at this
      simp only [EvalRes.host] at this
      cases w <;> simp [execStmt, he, ExecRes.host, this]
    | fail er h1 =>
      have := (evalExpr_frame e h).1
      rw [he] at this
      simpa [execStmt, he, ExecRes.host, EvalRes.host] using this
  | raiseStmt msg => simp [execStmt, ExecRes.host]

/-- Executing one statement while the capture object is installed leaves
the console untouched. -/
theorem execStmt_console (st : Stmt) (h : Host) (hs : h.stdout = .capture) :
    ((execStmt st h).host).consoleOut = h.consoleOut := by
  cases st with
  | printStmt e endS =>
    cases he : evalExpr e h with
    | ok v h1 =>
      have hfr := evalExpr_frame e h
      rw [he] at hfr
      simp only [EvalRes.host] at hfr
      have h1s : h1.stdout = StdoutTarget.capture := by rw [hfr.1, hs]
      have hw := (writeOut_capture (pyStr v ++ endS) h1 h1s).1
      simp [execStmt, he, ExecRes.host, hw, hfr.2.1]
    | fail er h1 =>
      have hfr := evalExpr_frame e h
      rw [he] at hfr
      simpa [execStmt, he, ExecRes.host, EvalRes.host] using hfr.2.1
  | exprStmt e =>
    cases he : evalExpr e h with
    | ok v h1 =>
      have hfr := evalExpr_frame e h
      rw [he] at hfr
      simpa [execStmt, he, ExecRes.host, EvalRes.host] using hfr.2.1
    | fail er h1 =>
      have hfr := evalExpr_frame e h
      rw [he] at hfr
      simpa [execStmt, he, ExecRes.host, EvalRes.host] using hfr.2.1
  | assignCol e c v =>
    cases he : evalExpr e h with
    | ok w h1 =>
      have hfr := evalExpr_frame e h
      rw [he] at hfr
      simp only [EvalRes.host] at hfr
      cases w <;> simp [execStmt, he, ExecRes.host, hfr.2.1]
    | fail er h1 =>
      have hfr := evalExpr_frame e h
      rw [he] at hfr
      simpa [execStmt, he, ExecRes.host, EvalRes.host] using hfr.2.1
  | raiseStmt msg => simp [execStmt, ExecRes.host]

/-- Executing one statement while the capture object is installed keeps
the buffer equal to the ghost trace (everything written lands in the
capture buffer, verbatim and in order). -/
theorem execStmt_sync (st : Stmt) (h : Host) (hs : h.stdout = .capture)
    (hb : h.buffer = h.trace) :
    ((execStmt st h).host).buffer = ((execStmt st h).host).trace := by
  cases st with
  | printStmt e endS =>
    cases he : evalExpr e h with
    | ok v h1 =>
      have hfr := evalExpr_frame e h
      rw [he] at hfr
      simp only [EvalRes.host] at hfr
      have h1s : h1.stdout = StdoutTarget.capture := by rw [hfr.1, hs]
      have hw := writeOut_capture (pyStr v ++ endS) h1 h1s
      have h1b : h1.buffer = h1.trace := by rw [hfr.2.2.1, hfr.2.2.2.1, hb]
      simp [execStmt, he, ExecRes.host, hw.2.1, hw.2.2, h1b]
    | fail er h1 =>
      have hfr := evalExpr_frame e h
      rw [he] at hfr
      simp only [EvalRes.host] at hfr
      simp [execStmt, he, ExecRes.host, hfr.2.2.1, hfr.2.2.2.1, hb]
  | exprStmt e =>
    cases he : evalExpr e h with
    | ok v h1 =>
      have hfr := evalExpr_frame e h
      rw [he] at hfr
      simp only [EvalRes.host] at hfr
      simp [execStmt, he, ExecRes.host, hfr.2.2.1, hfr.2.2.2.1, hb]
    | fail er h1 =>
      have hfr := evalExpr_frame e h
      rw [he] at hfr
      simp only [EvalRes.host] at hfr
      simp [execStmt, he, ExecRes.host, hfr.2.2.1, hfr.2.2.2.1, hb]
  | assignCol e c v =>
    cases he : evalExpr e h with
    | ok w h1 =>
      have hfr := evalExpr_frame e h
      rw [he] at hfr
      simp only [EvalRes.host] at hfr
      cases w <;> simp [execStmt, he, ExecRes.host, hfr.2.2.1, hfr.2.2.2.1, hb]
    | fail er h1 =>
      have hfr := evalExpr_frame e h
      rw [he] at hfr
      simp only [EvalRes.host] at hfr
      simp [execStmt, he, ExecRes.host, hfr.2.2.1, hfr.2.2.2.1, hb]
  | raiseStmt msg => simp [execStmt, ExecRes.host, hb]

/-- A statement that is not an in-place column assignment leaves the
caller's dataframe untouched. -/
theorem execStmt_heap (st : Stmt) (h : Host) (hm : st.mutatesDf = false) :
    ((execStmt st h).host).heap = h.heap := by
  cases st with
  | printStmt e endS =>
    cases he : evalExpr e h with
    | ok v h1 =>
      have hfr := evalExpr_frame e h
      rw [he] at hfr
      simp only [EvalRes.host] at hfr
      simp [execStmt, he, ExecRes.host, writeOut_heap, hfr.2.2.2.2]
    | fail er h1 =>
      have hfr := evalExpr_frame e h
      rw [he] at hfr
      simpa [execStmt, he, ExecRes.host, EvalRes.host] using hfr.2.2.2.2
  | exprStmt e =>
    cases he : evalExpr e h with
    | ok v h1 =>
      have hfr := evalExpr_frame e h
      rw [he] at hfr
      simpa [execStmt, he, ExecRes.host, EvalRes.host] using hfr.2.2.2.2
    | fail er h1 =>
      have hfr := evalExpr_frame e h
      rw [he] at hfr
      simpa [execStmt, he, ExecRes.host, EvalRes.host] using hfr.2.2.2.2
  | assignCol e c v => simp [Stmt.mutatesDf] at hm
  | raiseStmt msg => simp [execStmt, ExecRes.host]

/-- Executing a script never moves `sys.stdout`: in particular, if the
script raises, `sys.stdout` still points wherever it pointed when `exec`
started. -/
theorem execStmts_stdout (s : List Stmt) : ∀ h : Host,
    ((execStmts s h).host).stdout = h.stdout := by
  induction s with
  | nil => intro h; simp [execStmts, ExecRes.host]
  | cons st rest ih =>
    intro h
    cases hres : execStmt st h with
    | ok h1 =>
      have h1s := execStmt_stdout st h
      rw [hres] at h1s
      simp only [ExecRes.host] at h1s
      simp only [execStmts, hres]
      rw [ih h1, h1s]
    | fail e h1 =>
      have h1s := execStmt_stdout st h
      rw [hres] at h1s
      simpa [execStmts, hres, ExecRes.host] using h1s

/-- Executing a script while the capture object is installed forwards
nothing to the real console. -/
theorem execStmts_console (s : List Stmt) : ∀ h : Host, h.stdout = .capture →
    ((execStmts s h).host).consoleOut = h.consoleOut := by
  induction s with
  | nil => intro h _; simp [execStmts, ExecRes.host]
  | cons st rest ih =>
    intro h hs
    cases hres : execStmt st h with
    | ok h1 =>
      have h1s := execStmt_stdout st h
      rw [hres] at h1s
      simp only [ExecRes.host] at h1s
      have h1c := execStmt_console st h hs
      rw [hres] at h1c
      simp only [ExecRes.host] at h1c
      simp only [execStmts, hres]
      rw [ih h1 (by rw [h1s, hs]), h1c]
    | fail e h1 =>
      have h1c := execStmt_console st h hs
      rw [hres] at h1c
      simpa [execStmts, hres, ExecRes.host] using h1c

/-- Executing a script while the capture object is installed keeps the
capture buffer equal to the ghost trace of everything written. -/
theorem execStmts_sync (s : List Stmt) : ∀ h : Host, h.stdout = .capture →
    h.buffer = h.trace →
    ((execStmts s h).host).buffer = ((execStmts s h).host).trace := by
  induction s with
  | nil => intro h _ hb; simpa [execStmts, ExecRes.host] using hb
  | cons st rest ih =>
    intro h hs hb
    cases hres : execStmt st h with
    | ok h1 =>
      have h1s := execStmt_stdout st h
      rw [hres] at h1s
      simp only [ExecRes.host] at h1s
      have h1b := execStmt_sync st h hs hb
      rw [hres] at h1b
      simp only [ExecRes.host] at h1b
      simp only [execStmts, hres]
      exact ih h1 (by rw [h1s, hs]) h1b
    | fail e h1 =>
      have h1b := execStmt_sync st h hs hb
      rw [hres] at h1b
      simpa [execStmts, hres, ExecRes.host] using h1b

/-- Executing a script with no in-place column assignment leaves the
caller's dataframe untouched, whether it completes or raises. -/
theorem execStmts_heap (s : List Stmt) : ∀ h : Host,
    (∀ st ∈ s, st.mutatesDf = false) →
    ((execStmts s h).host).heap = h.heap := by
  induction s with
  | nil => intro h _; simp [execStmts, ExecRes.host]
  | cons st rest ih =>
    intro h hro
    cases hres : execStmt st h with
    | ok h1 =>
      have h1h := execStmt_heap st h (hro st (by simp))
      rw [hres] at h1h
      simp only [ExecRes.host] at h1h
      simp only [execStmts, hres]
      rw [ih h1 (fun x hx => hro x (by simp [hx])), h1h]
    | fail e h1 =>
      have h1h := execStmt_heap st h (hro st (by simp))
      rw [hres] at h1h
      simpa [execStmts, hres, ExecRes.host] using h1h

/-- Unfolding of a request that passes all three guards and whose script
execution raises: the `except` branch is taken. -/
theorem runAnalista_fail (question : List Char) (script : List Stmt)
    (interpret : List Char → List Char) (h0 : Host) (e : PyErr) (h2 : Host)
    (hq : question ≠ []) (hd : h0.heap ≠ [])
    (hx : execStmts script (sandboxEntry h0) = .fail e h2) :
    runAnalista true question script interpret h0 = ⟨1, 0, 1, .errorShown e, h2⟩ := by
  unfold runAnalista
  rw [if_neg (by decide), if_neg hq, if_neg hd, hx]

/-- Unfolding of a request that passes all three guards and whose script
execution completes: the captured buffer is interpreted and shown. -/
theorem runAnalista_ok (question : List Char) (script : List Stmt)
    (interpret : List Char → List Char) (h0 : Host) (h2 : Host)
    (hq : question ≠ []) (hd : h0.heap ≠ [])
    (hx : execStmts script (sandboxEntry h0) = .ok h2) :
    runAnalista true question script interpret h0 =
      ⟨1, 1, 1, .answered (interpret h2.buffer.flatten) h2.buffer.flatten,
        { h2 with stdout := h0.stdout }⟩ := by
  unfold runAnalista
  rw [if_neg (by decide), if_neg hq, if_neg hd, hx]

/-- Claim C1, counterexample.  The claim says a script referencing any
name outside the two granted bindings `pd` and `df` fails with a
name/reference error and that no file-system access is reachable.  The
script `open('/etc/passwd')` references `open`, a name outside the two
bindings, yet the request succeeds (the `exec` globals dictionary is
implicitly completed with the interpreter's builtins) and the script
reaches the host file system through the builtin `open`. -/
theorem sandbox_extra_names_reachable :
    (runAnalista true ['q'] openScript (fun s => s) demoHost).outcome =
      Outcome.answered [] [] ∧
    (runAnalista true ['q'] openScript (fun s => s) demoHost).host.fsReads = [pwPath] := by
  constructor
  · decide
  · decide

/-- Claim C1, amended.  The globals dictionary passed to `exec` holds
exactly the two granted bindings `pd` and `df`, and a script referencing
a name outside those two bindings *and* outside the interpreter's
implicitly injected builtins fails with a `NameError`; builtins
(including file-system access through `open`) remain reachable, as the
counterexample shows. -/
theorem sandbox_allowlist_amended :
    sandboxGlobals.map Prod.fst = ["pd", "df"] ∧
    (∀ (n : String) (h0 : Host), n ∉ allowNames →
      execStmts [Stmt.exprStmt (Expr.name n)] h0 = .fail (.nameError n) h0) := by
  constructor
  · rfl
  · intro n h0 hn
    simp only [allowNames, List.mem_cons, List.not_mem_nil, or_false] at hn
    push_neg at hn
    obtain ⟨h1, h2, h3, h4, h5, h6⟩ := hn
    have b1 : (n == "pd") = false := beq_eq_false_iff_ne.mpr h1
    have b2 : (n == "df") = false := beq_eq_false_iff_ne.mpr h2
    have b3 : (n == "print") = false := beq_eq_false_iff_ne.mpr h3
    have b4 : (n == "len") = false := beq_eq_false_iff_ne.mpr h4
    have b5 : (n == "open") = false := beq_eq_false_iff_ne.mpr h5
    have b6 : (n == "__import__") = false := beq_eq_false_iff_ne.mpr h6
    have hl : lookupName n = none := by
      simp [lookupName, sandboxGlobals, pyBuiltins, List.lookup, b1, b2, b3, b4, b5, b6]
    simp [execStmts, execStmt, evalExpr, hl]

/-- Claim C1, amended, witness at the concrete name `os`. -/
theorem sandbox_allowlist_amended_witness :
    ("os" ∉ allowNames) ∧
    execStmts nameOsScript demoHost = .fail (.nameError "os") demoHost :=
  ⟨by decide, sandbox_allowlist_amended.2 "os" demoHost (by decide)⟩

/-- Claim C2.  If the generated script raises during `exec`, the `except`
block catches it (the model of the request is a total function: the host
does not crash), the outcome shown carries the original error, no
interpretation model call is made (`interpCalls = 0`), and no captured
output is presented as an Execution Result (the outcome is `errorShown`,
not `answered`). -/
theorem script_exception_contained (question : List Char) (script : List Stmt)
    (interpret : List Char → List Char) (h0 : Host) (e : PyErr) (h2 : Host)
    (hq : question ≠ []) (hd : h0.heap ≠ [])
    (hx : execStmts script (sandboxEntry h0) = .fail e h2) :
    (runAnalista true question script interpret h0).outcome = .errorShown e ∧
    (runAnalista true question script interpret h0).interpCalls = 0 ∧
    (runAnalista true question script interpret h0).genCalls = 1 ∧
    (∀ ans res : List Char,
      (runAnalista true question script interpret h0).outcome ≠ .answered ans res) := by
  rw [runAnalista_fail question script interpret h0 e h2 hq hd hx]
  exact ⟨rfl, rfl, rfl, fun ans res => by simp⟩

/-- Claim C2, witness: a script that raises `boom` immediately. -/
theorem script_exception_contained_witness :
    (runAnalista true ['q'] raiseScript (fun s => s) demoHost).outcome =
      .errorShown (.userError ['b', 'o', 'o', 'm']) ∧
    (runAnalista true ['q'] raiseScript (fun s => s) demoHost).interpCalls = 0 :=
  ⟨(script_exception_contained ['q'] raiseScript (fun s => s) demoHost
      (.userError ['b', 'o', 'o', 'm']) (sandboxEntry demoHost)
      (by decide) (by decide) (by decide)).1,
   (script_exception_contained ['q'] raiseScript (fun s => s) demoHost
      (.userError ['b', 'o', 'o', 'm']) (sandboxEntry demoHost)
      (by decide) (by decide) (by decide)).2.1⟩

/-- Claim C3.  Everything a script writes to the text-output channel
while the capture object is installed lands in the capture buffer,
verbatim and in order (the buffer equals the ghost trace of all writes),
and nothing reaches the host's own console; a script whose entire output
is the text `42` yields the Execution Result `42`, and a script that
writes nothing yields an empty capture. -/
theorem stdout_capture_verbatim :
    (∀ (s : List Stmt) (h1 h2 : Host), h1.stdout = .capture → h1.buffer = [] →
      h1.trace = [] → execStmts s h1 = .ok h2 →
      h2.buffer = h2.trace ∧ h2.consoleOut = h1.consoleOut) ∧
    (runAnalista true ['q'] write42 (fun s => s) demoHost).outcome =
      .answered ['4', '2'] ['4', '2'] ∧
    (runAnalista true ['q'] ([] : List Stmt) (fun s => s) demoHost).outcome =
      .answered [] [] := by
  refine ⟨?_, by decide, by decide⟩
  intro s h1 h2 hs hb ht hx
  have hsync := execStmts_sync s h1 hs (by rw [hb, ht])
  have hcons := execStmts_console s h1 hs
  rw [hx] at hsync hcons
  simp only [ExecRes.host] at hsync hcons
  exact ⟨hsync, hcons⟩

/-- Claim C3, witness: instance of the general capture statement at a
one-line printing script. -/
theorem stdout_capture_verbatim_witness :
    ({ demoHost with stdout := .capture, buffer := [['h', 'i', '\n']], trace := [['h', 'i', '\n']] } : Host).buffer =
      ({ demoHost with stdout := .capture, buffer := [['h', 'i', '\n']], trace := [['h', 'i', '\n']] } : Host).trace ∧
    ({ demoHost with stdout := .capture, buffer := [['h', 'i', '\n']], trace := [['h', 'i', '\n']] } : Host).consoleOut =
      (sandboxEntry demoHost).consoleOut :=
  stdout_capture_verbatim.1 printHi (sandboxEntry demoHost)
    { demoHost with stdout := .capture, buffer := [['h', 'i', '\n']], trace := [['h', 'i', '\n']] }
    rfl rfl rfl (by decide)

/-- Claim C4, counterexample.  The claim says the executor never mutates
the caller's copy of the dataset whatever the script does; but `df` is
bound by reference (line 148 `df = df_filtrado`), so the script
`df['Precio'] = 0` mutates the caller's dataframe. -/
theorem df_mutation_counterexample :
    (runAnalista true ['q'] mutScript (fun s => s) demoHost).host.heap ≠ demoHost.heap := by
  decide

/-- Claim C4, amended.  The executor hands the script a reference to the
caller's dataframe, so a script containing no in-place column assignment
leaves the caller's copy unchanged, while an in-place assignment mutates
it (see the counterexample). -/
theorem readonly_script_preserves_df (s : List Stmt) (h : Host)
    (hro : ∀ st ∈ s, st.mutatesDf = false) :
    ((execStmts s h).host).heap = h.heap :=
  execStmts_heap s h hro

/-- Claim C4, amended, witness: a printing script leaves the dataframe
unchanged. -/
theorem readonly_script_preserves_df_witness :
    ((execStmts printHi demoHost).host).heap = demoHost.heap :=
  readonly_script_preserves_df printHi demoHost (by decide)

/-- Claim C5, counterexample.  The claim says a script that executes
without error but produces no output is treated as a failure and never
presented as a final answer; but the empty capture is fed to the
interpretation model call (`interpCalls = 1`) and its reply is shown as
the final answer. -/
theorem empty_output_counterexample :
    runAnalista true ['q'] ([] : List Stmt) (fun s => 'A' :: s) demoHost =
      ⟨1, 1, 1, .answered ['A'] [], demoHost⟩ := by
  decide

/-- Claim C5, amended.  A script that executes without error and writes
nothing is *not* treated as a failure: the empty Execution Result is
passed to the Interpretation stage (a second model call is made) and the
interpreted reply is presented as the final answer. -/
theorem empty_output_amended (question : List Char) (script : List Stmt)
    (interpret : List Char → List Char) (h0 : Host) (h2 : Host)
    (hq : question ≠ []) (hd : h0.heap ≠ [])
    (hx : execStmts script (sandboxEntry h0) = .ok h2) (hb : h2.buffer = []) :
    runAnalista true question script interpret h0 =
      ⟨1, 1, 1, .answered (interpret []) [], { h2 with stdout := h0.stdout }⟩ := by
  rw [runAnalista_ok question script interpret h0 h2 hq hd hx, hb]
  simp

/-- Claim C5, amended, witness: a script that evaluates `df` and prints
nothing still reaches the interpretation stage. -/
theorem empty_output_amended_witness :
    runAnalista true ['q'] noPrintScript (fun s => 'A' :: s) demoHost =
      ⟨1, 1, 1, .answered ['A'] [], { (sandboxEntry demoHost) with stdout := demoHost.stdout }⟩ :=
  empty_output_amended ['q'] noPrintScript (fun s => 'A' :: s) demoHost
    (sandboxEntry demoHost) (by decide) (by decide) (by decide) (by decide)

/-- Claim C6.  With an empty fetched dataset the page stops at the
line 23 guard: no model call is issued and the "no data" error is
reported; and in the analyst tab, with the model available and a
non-empty question, an empty filtered dataset stops the request before
any model call or execution attempt, reporting "no data". -/
theorem empty_dataset_refuses :
    (∀ (dfF : DataFrame) (mA : Bool) (question : List Char) (script : List Stmt)
      (interpret : List Char → List Char) (h0 : Host),
      pageRun [] dfF mA question script interpret h0 = .stoppedNoData ∧
      (pageRun [] dfF mA question script interpret h0).modelCallCount = 0) ∧
    (∀ (dfC : DataFrame) (question : List Char) (script : List Stmt)
      (interpret : List Char → List Char) (h0 : Host), dfC ≠ [] → question ≠ [] →
      pageRun dfC [] true question script interpret h0 =
        .ran ⟨0, 0, 0, .noData, { h0 with heap := ([] : DataFrame) }⟩) := by
  constructor
  · intro dfF mA question script interpret h0
    constructor
    · unfold pageRun
      rw [if_pos rfl]
    · unfold pageRun
      rw [if_pos rfl]
      rfl
  · intro dfC question script interpret h0 hC hq
    unfold pageRun
    rw [if_neg hC]
    unfold runAnalista
    rw [if_neg (by decide), if_neg hq, if_pos rfl]

/-- Claim C6, witness at concrete datasets. -/
theorem empty_dataset_refuses_witness :
    pageRun [] demoDF true ['q'] printHi (fun s => s) demoHost = .stoppedNoData ∧
    pageRun demoDF [] true ['q'] printHi (fun s => s) demoHost =
      .ran ⟨0, 0, 0, .noData, { demoHost with heap := ([] : DataFrame) }⟩ :=
  ⟨(empty_dataset_refuses.1 demoDF true ['q'] printHi (fun s => s) demoHost).1,
   empty_dataset_refuses.2 demoDF ['q'] printHi (fun s => s) demoHost
     (by decide) (by decide)⟩

/-- Claim C9.  One request performs at most one generation call, at most
one interpretation call and at most one execution attempt — no automatic
retries anywhere — and a failed execution ends the request: the
interpretation call count is `0` and exactly the one execution attempt
was made. -/
theorem single_attempt_no_retries (mA : Bool) (question : List Char)
    (script : List Stmt) (interpret : List Char → List Char) (h0 : Host) :
    (runAnalista mA question script interpret h0).execAttempts ≤ 1 ∧
    (runAnalista mA question script interpret h0).genCalls ≤ 1 ∧
    (runAnalista mA question script interpret h0).interpCalls ≤ 1 ∧
    (∀ e : PyErr, (runAnalista mA question script interpret h0).outcome = .errorShown e →
      (runAnalista mA question script interpret h0).interpCalls = 0 ∧
      (runAnalista mA question script interpret h0).execAttempts = 1) := by
  unfold runAnalista
  by_cases hm : mA = false
  · rw [if_pos hm]; simp
  · rw [if_neg hm]
    by_cases hq : question = []
    · rw [if_pos hq]; simp
    · rw [if_neg hq]
      by_cases hd : h0.heap = []
      · rw [if_pos hd]; simp
      · rw [if_neg hd]
        cases hx : execStmts script (sandboxEntry h0) with
        | ok h2 => simp
        | fail e h2 => simp

/-- Claim C9, witness: a failing request made exactly one execution
attempt and no interpretation call. -/
theorem single_attempt_no_retries_witness :
    (runAnalista true ['q'] raiseScript (fun s => s) demoHost).interpCalls = 0 ∧
    (runAnalista true ['q'] raiseScript (fun s => s) demoHost).execAttempts = 1 :=
  (single_attempt_no_retries true ['q'] raiseScript (fun s => s) demoHost).2.2.2
    (PyErr.userError ['b', 'o', 'o', 'm']) (by decide)

/-- Claim C10.  Line 152 restores `sys.stdout` only on the success path:
if the script raises, the `except` branch at line 171 runs with
`sys.stdout` still pointing at the now-dead capture object, so after a
failed request the process-wide `sys.stdout` remains the capture object;
after a successful request it is restored to its previous target. -/
theorem stdout_leak_on_failure :
    (∀ (question : List Char) (script : List Stmt)
      (interpret : List Char → List Char) (h0 : Host) (e : PyErr) (h2 : Host),
      question ≠ [] → h0.heap ≠ [] →
      execStmts script (sandboxEntry h0) = .fail e h2 →
      (runAnalista true question script interpret h0).host.stdout = .capture) ∧
    (∀ (question : List Char) (script : List Stmt)
      (interpret : List Char → List Char) (h0 : Host) (h2 : Host),
      question ≠ [] → h0.heap ≠ [] →
      execStmts script (sandboxEntry h0) = .ok h2 →
      (runAnalista true question script interpret h0).host.stdout = h0.stdout) := by
  constructor
  · intro question script interpret h0 e h2 hq hd hx
    rw [runAnalista_fail question script interpret h0 e h2 hq hd hx]
    have hstd := execStmts_stdout script (sandboxEntry h0)
    rw [hx] at hstd
    simp only [ExecRes.host] at hstd
    rw [hstd]
    rfl
  · intro question script interpret h0 h2 hq hd hx
    rw [runAnalista_ok question script interpret h0 h2 hq hd hx]

/-- Expression evaluation is deterministic: the big-step relation relates
an expression and a starting host to at most one result. -/
theorem eval_det : ∀ {e : Expr} {h : Host} {r1 r2 : EvalRes},
    EvalR e h r1 → EvalR e h r2 → r1 = r2 := by
  intro e h r1 r2 d1
  induction d1 generalizing r2 with
  | lit => intro d2; cases d2; rfl
  | nameFound hf =>
    intro d2
    cases d2 with
    | nameFound hf2 => rw [hf] at hf2; injection hf2 with hv; rw [hv]
    | nameMissing hm => rw [hf] at hm; simp at hm
  | nameMissing hm =>
    intro d2
    cases d2 with
    | nameFound hf => rw [hf] at hm; simp at hm
    | nameMissing _ => rfl
  | appOk dfd dad ihf iha =>
    intro d2
    cases d2 with
    | appOk df2 da2 =>
      have h1eq := ihf df2
      injection h1eq with hv hh
      subst hv
      subst hh
      have h2eq := iha da2
      injection h2eq with hv2 hh2
      subst hv2
      subst hh2
      rfl
    | appFunFail df2 =>
      have := ihf df2
      simp at this
    | appArgFail df2 da2 =>
      have h1eq := ihf df2
      injection h1eq with hv hh
      subst hv
      subst hh
      have := iha da2
      simp at this
  | appFunFail dfd ihf =>
    intro d2
    cases d2 with
    | appOk df2 da2 => have := ihf df2; simp at this
    | appFunFail df2 => exact ihf df2
    | appArgFail df2 da2 => have := ihf df2; simp at this
  | appArgFail dfd dad ihf iha =>
    intro d2
    cases d2 with
    | appOk df2 da2 =>
      have h1eq := ihf df2
      injection h1eq with hv hh
      subst hv
      subst hh
      have := iha da2
      simp at this
    | appFunFail df2 => have := ihf df2; simp at this
    | appArgFail df2 da2 =>
      have h1eq := ihf df2
      injection h1eq with hv hh
      subst hv
      subst hh
      exact iha da2

/-- Statement execution is deterministic. -/
theorem stmt_det : ∀ {st : Stmt} {h : Host} {r1 r2 : ExecRes},
    StmtR st h r1 → StmtR st h r2 → r1 = r2 := by
  intro st h r1 r2 d1 d2
  cases d1 with
  | printOk hev =>
    cases d2 with
    | printOk hev2 =>
      have := eval_det hev hev2
      injection this with hv hh
      subst hv
      subst hh
      rfl
    | printFail hev2 => have := eval_det hev hev2; simp at this
  | printFail hev =>
    cases d2 with
    | printOk hev2 => have := eval_det hev hev2; simp at this
    | printFail hev2 =>
      have := eval_det hev hev2
      injection this with he hh
      subst he
      subst hh
      rfl
  | exprOk hev =>
    cases d2 with
    | exprOk hev2 =>
      have := eval_det hev hev2
      injection this with hv hh
      subst hh
      rfl
    | exprFail hev2 => have := eval_det hev hev2; simp at this
  | exprFail hev =>
    cases d2 with
    | exprOk hev2 => have := eval_det hev hev2; simp at this
    | exprFail hev2 =>
      have := eval_det hev hev2
      injection this with he hh
      subst he
      subst hh
      rfl
  | assignOk hev =>
    cases d2 with
    | assignOk hev2 =>
      have := eval_det hev hev2
      injection this with hv hh
      subst hh
      rfl
    | assignBad hev2 hne =>
      have := eval_det hev hev2
      injection this with hv hh
      exact absurd hv.symm hne
    | assignFail hev2 => have := eval_det hev hev2; simp at this
  | assignBad hev hne =>
    cases d2 with
    | assignOk hev2 =>
      have := eval_det hev hev2
      injection this with hv hh
      exact absurd hv hne
    | assignBad hev2 hne2 =>
      have := eval_det hev hev2
      injection this with hv hh
      subst hh
      rfl
    | assignFail hev2 => have := eval_det hev hev2; simp at this
  | assignFail hev =>
    cases d2 with
    | assignOk hev2 => have := eval_det hev hev2; simp at this
    | assignBad hev2 hne => have := eval_det hev hev2; simp at this
    | assignFail hev2 =>
      have := eval_det hev hev2
      injection this with he hh
      subst he
      subst hh
      rfl
  | raiseR => cases d2; rfl

/-- Script execution is deterministic. -/
theorem exec_det : ∀ {s : List Stmt} {h : Host} {r1 r2 : ExecRes},
    ExecR s h r1 → ExecR s h r2 → r1 = r2 := by
  intro s h r1 r2 d1
  induction d1 generalizing r2 with
  | nil => intro d2; cases d2; rfl
  | consOk hst hrest ih =>
    intro d2
    cases d2 with
    | consOk hst2 hrest2 =>
      have := stmt_det hst hst2
      injection this with hh
      subst hh
      exact ih hrest2
    | consFail hst2 => have := stmt_det hst hst2; simp at this
  | consFail hst =>
    intro d2
    cases d2 with
    | consOk hst2 hrest2 => have := stmt_det hst hst2; simp at this
    | consFail hst2 =>
      have := stmt_det hst hst2
      injection this with he hh
      subst he
      subst hh
      rfl

/-- Adequacy: the executable evaluator realizes the big-step relation. -/
theorem eval_sound : ∀ (e : Expr) (h : Host), EvalR e h (evalExpr e h) := by
  intro e
  induction e with
  | lit v => intro h; exact EvalR.lit
  | name n =>
    intro h
    cases hl : lookupName n with
    | some v =>
      have heq : evalExpr (.name n) h = .ok v h := by simp [evalExpr, hl]
      rw [heq]
      exact EvalR.nameFound hl
    | none =>
      have heq : evalExpr (.name n) h = .fail (.nameError n) h := by simp [evalExpr, hl]
      rw [heq]
      exact EvalR.nameMissing hl
  | app f a ihf iha =>
    intro h
    cases hf : evalExpr f h with
    | fail e1 h1 =>
      have heq : evalExpr (.app f a) h = .fail e1 h1 := by simp [evalExpr, hf]
      rw [heq]
      have df := ihf h
      rw [hf] at df
      exact EvalR.appFunFail df
    | ok vf h1 =>
      cases ha : evalExpr a h1 with
      | fail e2 h2 =>
        have heq : evalExpr (.app f a) h = .fail e2 h2 := by simp [evalExpr, hf, ha]
        rw [heq]
        have df := ihf h
        rw [hf] at df
        have da := iha h1
        rw [ha] at da
        exact EvalR.appArgFail df da
      | ok va h2 =>
        have heq : evalExpr (.app f a) h = applyVal vf va h2 := by simp [evalExpr, hf, ha]
        rw [heq]
        have df := ihf h
        rw [hf] at df
        have da := iha h1
        rw [ha] at da
        exact EvalR.appOk df da

/-- Adequacy: the executable statement interpreter realizes the big-step
relation. -/
theorem stmt_sound : ∀ (st : Stmt) (h : Host), StmtR st h (execStmt st h) := by
  intro st h
  cases st with
  | printStmt e endS =>
    cases he : evalExpr e h with
    | ok v h1 =>
      have heq : execStmt (.printStmt e endS) h = .ok (writeOut (pyStr v ++ endS) h1) := by
        simp [execStmt, he]
      rw [heq]
      have de := eval_sound e h
      rw [he] at de
      exact StmtR.printOk de
    | fail er h1 =>
      have heq : execStmt (.printStmt e endS) h = .fail er h1 := by simp [execStmt, he]
      rw [heq]
      have de := eval_sound e h
      rw [he] at de
      exact StmtR.printFail de
  | exprStmt e =>
    cases he : evalExpr e h with
    | ok v h1 =>
      have heq : execStmt (.exprStmt e) h = .ok h1 := by simp [execStmt, he]
      rw [heq]
      have de := eval_sound e h
      rw [he] at de
      exact StmtR.exprOk de
    | fail er h1 =>
      have heq : execStmt (.exprStmt e) h = .fail er h1 := by simp [execStmt, he]
      rw [heq]
      have de := eval_sound e h
      rw [he] at de
      exact StmtR.exprFail de
  | assignCol e c v =>
    cases he : evalExpr e h with
    | ok w h1 =>
      have de := eval_sound e h
      rw [he] at de
      cases w with
      | dfRef =>
        have heq : execStmt (.assignCol e c v) h = .ok { h1 with heap := setCol h1.heap c v } := by
          simp [execStmt, he]
        rw [heq]
        exact StmtR.assignOk de
      | int m =>
        have heq : execStmt (.assignCol e c v) h = .fail .typeError h1 := by simp [execStmt, he]
        rw [heq]
        exact StmtR.assignBad de (by simp)
      | str s2 =>
        have heq : execStmt (.assignCol e c v) h = .fail .typeError h1 := by simp [execStmt, he]
        rw [heq]
        exact StmtR.assignBad de (by simp)
      | module m =>
        have heq : execStmt (.assignCol e c v) h = .fail .typeError h1 := by simp [execStmt, he]
        rw [heq]
        exact StmtR.assignBad de (by simp)
      | builtinFn n =>
        have heq : execStmt (.assignCol e c v) h = .fail .typeError h1 := by simp [execStmt, he]
        rw [heq]
        exact StmtR.assignBad de (by simp)
      | fileHandle p =>
        have heq : execStmt (.assignCol e c v) h = .fail .typeError h1 := by simp [execStmt, he]
        rw [heq]
        exact StmtR.assignBad de (by simp)
    | fail er h1 =>
      have heq : execStmt (.assignCol e c v) h = .fail er h1 := by simp [execStmt, he]
      rw [heq]
      have de := eval_sound e h
      rw [he] at de
      exact StmtR.assignFail de
  | raiseStmt msg => exact StmtR.raiseR

/-- Adequacy: the executable script interpreter realizes the big-step
relation. -/
theorem exec_sound : ∀ (s : List Stmt) (h : Host), ExecR s h (execStmts s h) := by
  intro s
  induction s with
  | nil => intro h; exact ExecR.nil
  | cons st rest ih =>
    intro h
    cases hres : execStmt st h with
    | ok h1 =>
      have heq : execStmts (st :: rest) h = execStmts rest h1 := by simp [execStmts, hres]
      rw [heq]
      have ds := stmt_sound st h
      rw [hres] at ds
      exact ExecR.consOk ds (ih h1)
    | fail e h1 =>
      have heq : execStmts (st :: rest) h = .fail e h1 := by simp [execStmts, hres]
      rw [heq]
      have ds := stmt_sound st h
      rw [hres] at ds
      exact ExecR.consFail ds

/-- Claim C7.  The execution stage in isolation is deterministic: for a
fixed generated script and a fixed starting host (hence fixed dataset),
any two runs of the sandboxed execution — entered through the line 149
stdout swap — produce the same result, hence identical Execution
Results. -/
theorem executor_deterministic (s : List Stmt) (h0 : Host) (r1 r2 : ExecRes)
    (d1 : ExecR s (sandboxEntry h0) r1) (d2 : ExecR s (sandboxEntry h0) r2) :
    r1 = r2 :=
  exec_det d1 d2

/-- Claim C7, witness: two runs of the one-line printing script from the
same entry state agree, pinning the common result. -/
theorem executor_deterministic_witness :
    execStmts printHi (sandboxEntry demoHost) =
      ExecRes.ok { demoHost with stdout := .capture, buffer := [['h', 'i', '\n']], trace := [['h', 'i', '\n']] } := by
  have hc : execStmts printHi (sandboxEntry demoHost) =
      ExecRes.ok { demoHost with stdout := .capture, buffer := [['h', 'i', '\n']], trace := [['h', 'i', '\n']] } := by
    decide
  exact executor_deterministic printHi demoHost _ _
    (exec_sound printHi (sandboxEntry demoHost))
    (hc ▸ exec_sound printHi (sandboxEntry demoHost))

/-- Replacement on an empty string is empty for any fuel. -/
theorem replaceAux_nil (fuel : Nat) (pat r : List Char) :
    replaceAux fuel [] pat r = [] := by
  cases fuel <;> rfl

/-- A true Boolean prefix test yields a decomposition. -/
theorem isPrefixOf_exists : ∀ {p s : List Char}, p.isPrefixOf s = true → ∃ v, s = p ++ v := by
  intro p
  induction p with
  | nil => intro s _; exact ⟨s, rfl⟩
  | cons a p2 ih =>
    intro s hp
    cases s with
    | nil => simp [List.isPrefixOf] at hp
    | cons b t =>
      simp only [List.isPrefixOf, Bool.and_eq_true, beq_iff_eq] at hp
      obtain ⟨hab, ht⟩ := hp
      obtain ⟨v, hv⟩ := ih ht
      subst hab
      exact ⟨v, by rw [hv]; rfl⟩

/-- A list is a Boolean prefix of itself followed by anything. -/
theorem isPrefixOf_append : ∀ (p v : List Char), p.isPrefixOf (p ++ v) = true := by
  intro p v
  induction p with
  | nil => cases v <;> rfl
  | cons a t ih => simp [List.isPrefixOf, ih]

/-- The fuel does not matter once it covers the input length. -/
theorem replaceAux_irrel : ∀ (m k : Nat) (s pat r : List Char), s.length ≤ m →
    s.length ≤ k → replaceAux m s pat r = replaceAux k s pat r := by
  intro m
  induction m with
  | zero =>
    intro k s pat r hm hk
    have hs : s = [] := List.eq_nil_of_length_eq_zero (Nat.le_zero.mp hm)
    subst hs
    rw [replaceAux_nil, replaceAux_nil]
  | succ m ih =>
    intro k s pat r hm hk
    cases s with
    | nil => rw [replaceAux_nil, replaceAux_nil]
    | cons a t =>
      cases k with
      | zero => simp at hk
      | succ k2 =>
        simp only [replaceAux]
        by_cases hp : pat.isPrefixOf (a :: t) = true
        · rw [if_pos hp, if_pos hp]
          congr 1
          apply ih
          · rw [List.length_drop]
            simp only [List.length_cons] at hm
            omega
          · rw [List.length_drop]
            simp only [List.length_cons] at hk
            omega
        · rw [if_neg hp, if_neg hp]
          congr 1
          apply ih
          · simp only [List.length_cons] at hm
            omega
          · simp only [List.length_cons] at hk
            omega

/-- If the pattern occurs nowhere in the string, replacement is the
identity. -/
theorem replaceAux_no : ∀ (m : Nat) (s pat r : List Char), s.length ≤ m →
    ¬ ContainsPat pat s → replaceAux m s pat r = s := by
  intro m
  induction m with
  | zero =>
    intro s pat r hm hc
    have hs : s = [] := List.eq_nil_of_length_eq_zero (Nat.le_zero.mp hm)
    subst hs
    rw [replaceAux_nil]
  | succ m ih =>
    intro s pat r hm hc
    cases s with
    | nil => rw [replaceAux_nil]
    | cons a t =>
      simp only [replaceAux]
      have hp : ¬ pat.isPrefixOf (a :: t) = true := by
        intro hp
        obtain ⟨v, hv⟩ := isPrefixOf_exists hp
        exact hc ⟨[], v, by rw [hv]; simp⟩
      rw [if_neg hp]
      congr 1
      apply ih
      · simp only [List.length_cons] at hm
        omega
      · intro hct
        obtain ⟨u, v, huv⟩ := hct
        exact hc ⟨a :: u, v, by rw [huv]; simp⟩

/-- A match at the head of the string is replaced, and scanning continues
after the matched part. -/
theorem replaceAux_head : ∀ (m : Nat) (pat rest r : List Char), pat ≠ [] →
    (pat ++ rest).length ≤ m →
    replaceAux m (pat ++ rest) pat r = r ++ replaceAux rest.length rest pat r := by
  intro m pat rest r hp hm
  cases pat with
  | nil => exact absurd rfl hp
  | cons p pt =>
    cases m with
    | zero => simp at hm
    | succ m2 =>
      show replaceAux (m2 + 1) (p :: (pt ++ rest)) (p :: pt) r = _
      simp only [replaceAux]
      rw [if_pos]
      · congr 1
        have hd : List.drop ((p :: pt).length - 1) (pt ++ rest) = rest := by
          rw [show (p :: pt).length - 1 = pt.length by simp, List.drop_left]
        rw [hd]
        apply replaceAux_irrel
        · simp only [List.length_append, List.length_cons] at hm
          omega
        · exact le_refl _
      · exact isPrefixOf_append (p :: pt) rest

/-- A backtick-free front followed by exactly one closing fence reduces
to the front when the fence is replaced by the empty string. -/
theorem replaceAux_tailfence : ∀ (front : List Char) (m : Nat),
    (∀ c ∈ front, c ≠ graveChar) → (front ++ fence3).length ≤ m →
    replaceAux m (front ++ fence3) fence3 [] = front := by
  intro front
  induction front with
  | nil =>
    intro m hg hm
    simp only [List.nil_append]
    cases m with
    | zero => simp [fence3] at hm
    | succ m2 =>
      show replaceAux (m2 + 1) (graveChar :: [graveChar, graveChar]) fence3 [] = []
      simp only [replaceAux]
      rw [if_pos]
      · have hd : List.drop (fence3.length - 1) [graveChar, graveChar] = [] := by
          simp [fence3]
        rw [hd, replaceAux_nil]
        simp
      · decide
  | cons c front2 ih =>
    intro m hg hm
    cases m with
    | zero => simp at hm
    | succ m2 =>
      show replaceAux (m2 + 1) (c :: (front2 ++ fence3)) fence3 [] = c :: front2
      simp only [replaceAux]
      rw [if_neg]
      · congr 1
        apply ih
        · intro x hx
          exact hg x (by simp [hx])
        · simp only [List.length_cons, List.length_append] at hm ⊢
          omega
      · intro hp
        have hc : c ≠ graveChar := hg c (by simp)
        simp only [fence3, List.isPrefixOf, Bool.and_eq_true, beq_iff_eq] at hp
        exact hc hp.1.symm

/-- The last element of a list with an explicit final element. -/
theorem lastChar_concat : ∀ (l : List Char) (a : Char), lastChar (l ++ [a]) = some a := by
  intro l a
  induction l with
  | nil => rfl
  | cons c t ih =>
    cases t with
    | nil => rfl
    | cons d t2 => exact ih

/-- Dropping while a predicate holds does nothing when the head already
fails the predicate. -/
theorem dropWhile_cons_false (p : Char → Bool) (a : Char) (l : List Char)
    (h : p a = false) : List.dropWhile p (a :: l) = a :: l := by
  simp [List.dropWhile, h]

/-- Python `strip()` is the identity on a text that starts and ends with
a backtick. -/
theorem pyStrip_grave (mid : List Char) :
    pyStrip (graveChar :: (mid ++ [graveChar])) = graveChar :: (mid ++ [graveChar]) := by
  have hsp : pySpace graveChar = false := by decide
  unfold pyStrip
  rw [dropWhile_cons_false _ _ _ hsp]
  have hrev : (graveChar :: (mid ++ [graveChar])).reverse =
      graveChar :: (mid.reverse ++ [graveChar]) := by
    simp
  rw [hrev, dropWhile_cons_false _ _ _ hsp, ← hrev, List.reverse_reverse]

/-- The opening fence marker occurs nowhere in the text that follows it
when the body is backtick-free: the only backticks left are the three of
the closing fence, too few for the nine-character opening marker, which
moreover ends in a letter while the text ends in a backtick. -/
theorem no_fencePy_in_rest (body : List Char) (hb : graveChar ∉ body) :
    ¬ ContainsPat fencePy ('\n' :: (body ++ ('\n' :: fence3))) := by
  intro hcp
  obtain ⟨u, v, huv⟩ := hcp
  have hcb : List.count graveChar body = 0 := List.count_eq_zero.mpr hb
  have hcount : List.count graveChar ('\n' :: (body ++ ('\n' :: fence3))) = 3 := by
    rw [List.count_cons_of_ne (by decide : graveChar ≠ '\n'), List.count_append, hcb,
      List.count_cons_of_ne (by decide : graveChar ≠ '\n'),
      show List.count graveChar fence3 = 3 from by decide]
  have hcountuv : List.count graveChar (u ++ fencePy ++ v) =
      List.count graveChar u + 3 + List.count graveChar v := by
    rw [List.count_append, List.count_append,
      show List.count graveChar fencePy = 3 from by decide]
  rw [huv, hcountuv] at hcount
  have hcu : List.count graveChar u = 0 := by omega
  have hcv : List.count graveChar v = 0 := by omega
  have hlast : lastChar ('\n' :: (body ++ ('\n' :: fence3))) = some graveChar := by
    have hform : '\n' :: (body ++ ('\n' :: fence3)) =
        ('\n' :: (body ++ ['\n', graveChar, graveChar])) ++ [graveChar] := by
      simp [fence3, List.append_assoc]
    rw [hform, lastChar_concat]
  rcases List.eq_nil_or_concat v with hv0 | ⟨v2, b, hvb⟩
  · subst hv0
    rw [huv] at hlast
    have hform2 : u ++ fencePy ++ ([] : List Char) =
        (u ++ [graveChar, graveChar, graveChar, 'p', 'y', 't', 'h', 'o']) ++ ['n'] := by
      simp [fencePy, List.append_assoc]
    rw [hform2, lastChar_concat] at hlast
    injection hlast with hlc
    exact absurd hlc (by decide)
  · rw [List.concat_eq_append] at hvb
    subst hvb
    rw [huv] at hlast
    have hform3 : u ++ fencePy ++ (v2 ++ [b]) = (u ++ fencePy ++ v2) ++ [b] := by
      simp [List.append_assoc]
    rw [hform3, lastChar_concat] at hlast
    injection hlast with hlc
    subst hlc
    rw [List.count_append,
      show List.count graveChar [graveChar] = 1 from by decide] at hcv
    omega

/-- Claim C8.  Line 144 computes
`respuesta_ia.text.strip().replace(openFence, empty).replace(bareFence, empty)`:
for every model reply consisting of a backtick-free script body wrapped
in a code fence, the resulting `codigo_generado` is exactly the wrapped
content with both fence markers removed. -/
theorem codefences_stripped (body : List Char) (hb : graveChar ∉ body) :
    codigoGenerado (fencePy ++ ('\n' :: (body ++ ('\n' :: fence3)))) =
      '\n' :: (body ++ ['\n']) := by
  have hshape : fencePy ++ ('\n' :: (body ++ ('\n' :: fence3))) =
      graveChar :: ((graveChar :: graveChar :: 'p' :: 'y' :: 't' :: 'h' :: 'o' :: 'n' ::
        '\n' :: (body ++ ['\n', graveChar, graveChar])) ++ [graveChar]) := by
    simp [fencePy, fence3, List.append_assoc]
  unfold codigoGenerado
  rw [hshape, pyStrip_grave, ← hshape]
  have h1 : pyReplace (fencePy ++ ('\n' :: (body ++ ('\n' :: fence3)))) fencePy [] =
      '\n' :: (body ++ ('\n' :: fence3)) := by
    unfold pyReplace
    rw [replaceAux_head _ fencePy _ [] (by simp [fencePy]) (le_refl _),
      replaceAux_no _ _ _ _ (le_refl _) (no_fencePy_in_rest body hb)]
    simp
  rw [h1]
  have hrest : '\n' :: (body ++ ('\n' :: fence3)) = ('\n' :: (body ++ ['\n'])) ++ fence3 := by
    simp [List.append_assoc]
  rw [hrest]
  have hgrave : ∀ c ∈ '\n' :: (body ++ ['\n']), c ≠ graveChar := by
    intro c hc
    simp only [List.mem_cons, List.mem_append] at hc
    rcases hc with h | h | h | h
    · subst h; decide
    · intro he; exact hb (he ▸ h)
    · subst h; decide
    · simp at h
  exact replaceAux_tailfence ('\n' :: (body ++ ['\n'])) _ hgrave (le_refl _)

/-- Claim C8, witness at a concrete fenced reply wrapping
`print(len(df))`. -/
theorem codefences_stripped_witness :
    graveChar ∉ demoBody ∧
    codigoGenerado (fencePy ++ ('\n' :: (demoBody ++ ('\n' :: fence3)))) =
      '\n' :: (demoBody ++ ['\n']) :=
  ⟨by decide, codefences_stripped demoBody (by decide)⟩

/-- Claim C10, witness: after the raising script the process-wide
`sys.stdout` is still the capture object; after the printing script it is
back to the console. -/
theorem stdout_leak_on_failure_witness :
    (runAnalista true ['q'] raiseScript (fun s => s) demoHost).host.stdout = .capture ∧
    (runAnalista true ['q'] printHi (fun s => s) demoHost).host.stdout = demoHost.stdout :=
  ⟨stdout_leak_on_failure.1 ['q'] raiseScript (fun s => s) demoHost
      (.userError ['b', 'o', 'o', 'm']) (sandboxEntry demoHost)
      (by decide) (by decide) (by decide),
   stdout_leak_on_failure.2 ['q'] printHi (fun s => s) demoHost
      { demoHost with stdout := .capture, buffer := [['h', 'i', '\n']], trace := [['h', 'i', '\n']] }
      (by decide) (by decide) (by decide)⟩

end Asistente
